import Mathlib

/-!
Shallow embedding of the opportunity-detection and execution core of the
cex-dex-arbitrage-bot repository, together with theorems settling the
specification claims about it.

The numeric model follows bignumber.js as configured by the repository
(`BigNumber.config({ EXPONENTIAL_AT: 1e+9 })`, so `DECIMAL_PLACES` keeps its
default of 20 and `ROUNDING_MODE` its default `ROUND_HALF_UP`):
addition, subtraction and multiplication of finite values are exact rational
operations; division rounds its result to 20 decimal places, half-up, ties
away from zero; division by zero yields +Infinity, -Infinity or NaN depending
on the sign of the dividend.  A `BigNum` is a finite rational or one of the
three non-finite values.
-/

/-- Value domain of bignumber.js: a finite (arbitrary-precision decimal)
value, positive or negative infinity, or NaN. -/
inductive BigNum where
  | num (q : ℚ)
  | posInf
  | negInf
  | nan
deriving DecidableEq

namespace BigNum

/-- Truncation toward zero, the "integer part" used by
`BigNumber.dividedToIntegerBy`. -/
def ratTrunc (q : ℚ) : ℤ := if 0 ≤ q then ⌊q⌋ else ⌈q⌉

/-- Rounding of a rational to 20 decimal places, half-up with ties away from
zero: the default rounding bignumber.js applies to the result of
`dividedBy`. -/
def roundHalfUp20 (q : ℚ) : ℚ :=
  if q < 0 then -((⌊-q * 10 ^ 20 + 1 / 2⌋ : ℚ) / 10 ^ 20)
  else (⌊q * 10 ^ 20 + 1 / 2⌋ : ℚ) / 10 ^ 20

/-- Negation (`BigNumber.negated`, used to express subtraction). -/
def bnNeg : BigNum → BigNum
  | num q => num (-q)
  | posInf => negInf
  | negInf => posInf
  | nan => nan

/-- `BigNumber.plus`. -/
def bnAdd : BigNum → BigNum → BigNum
  | num a, num b => num (a + b)
  | num _, posInf => posInf
  | num _, negInf => negInf
  | posInf, num _ => posInf
  | negInf, num _ => negInf
  | posInf, posInf => posInf
  | negInf, negInf => negInf
  | posInf, negInf => nan
  | negInf, posInf => nan
  | nan, _ => nan
  | _, nan => nan

/-- `BigNumber.minus`. -/
def bnSub (a b : BigNum) : BigNum := bnAdd a (bnNeg b)

/-- `BigNumber.multipliedBy`: exact on finite values. -/
def bnMul : BigNum → BigNum → BigNum
  | num a, num b => num (a * b)
  | num a, posInf => if 0 < a then posInf else if a < 0 then negInf else nan
  | num a, negInf => if 0 < a then negInf else if a < 0 then posInf else nan
  | posInf, num b => if 0 < b then posInf else if b < 0 then negInf else nan
  | negInf, num b => if 0 < b then negInf else if b < 0 then posInf else nan
  | posInf, posInf => posInf
  | negInf, negInf => posInf
  | posInf, negInf => negInf
  | negInf, posInf => negInf
  | nan, _ => nan
  | _, nan => nan

/-- `BigNumber.dividedBy`: on finite values the quotient is rounded to 20
decimal places half-up; a zero divisor yields a signed infinity (or NaN for
0/0) instead of an error. -/
def bnDiv : BigNum → BigNum → BigNum
  | num a, num b =>
      if b = 0 then (if 0 < a then posInf else if a < 0 then negInf else nan)
      else num (roundHalfUp20 (a / b))
  | num _, posInf => num 0
  | num _, negInf => num 0
  | num _, nan => nan
  | posInf, num b => if 0 ≤ b then posInf else negInf
  | negInf, num b => if 0 ≤ b then negInf else posInf
  | posInf, _ => nan
  | negInf, _ => nan
  | nan, _ => nan

/-- `BigNumber.dividedToIntegerBy`: the integer part of the quotient
(truncation toward zero); a zero divisor behaves as in `bnDiv`. -/
def bnDivInt : BigNum → BigNum → BigNum
  | num a, num b =>
      if b = 0 then (if 0 < a then posInf else if a < 0 then negInf else nan)
      else num (ratTrunc (a / b))
  | num _, posInf => num 0
  | num _, negInf => num 0
  | num _, nan => nan
  | posInf, num b => if 0 ≤ b then posInf else negInf
  | negInf, num b => if 0 ≤ b then negInf else posInf
  | posInf, _ => nan
  | negInf, _ => nan
  | nan, _ => nan

/-- JavaScript strict greater-than on numbers as used by the code's
comparisons (`profitPercentage > threshold`): any comparison with NaN is
false. -/
def jsGtB : BigNum → BigNum → Bool
  | num a, num b => decide (b < a)
  | num _, negInf => true
  | posInf, num _ => true
  | posInf, negInf => true
  | _, _ => false

end BigNum

open BigNum

/-- A rational whose product with `10 ^ 20` is an integer (that is, one
expressible with at most 20 decimal places) is unchanged by
`roundHalfUp20`. -/
theorem roundHalfUp20_eq_self (q : ℚ) (n : ℤ) (h : q * 10 ^ 20 = (n : ℚ)) :
    roundHalfUp20 q = q := by
  have hfl : ∀ m : ℤ, (⌊(m : ℚ) + 1 / 2⌋ : ℤ) = m := by
    intro m
    rw [add_comm, Int.floor_add_int]
    norm_num
  unfold roundHalfUp20
  by_cases hq : q < 0
  · rw [if_pos hq]
    have h' : -q * 10 ^ 20 = ((-n : ℤ) : ℚ) := by push_cast; linarith
    rw [h', hfl]
    push_cast
    field_simp
    linarith
  · rw [if_neg hq, h, hfl]
    field_simp
    linarith

/-!
## The service's fee and gas configuration

`ArbitrageService`'s constructor fixes `fees.binance.taker = 0.001`,
`fees.uniswap.fee = 0.003` and per-network gas costs in USD; a network
missing from the table falls back through `|| 0.1`.
-/

/-- Gas-cost lookup `this.fees.gas[network] || 0.1` from the service's fee
table. -/
def gasCostFor (network : String) : ℚ :=
  if network = "ethereum" then 20
  else if network = "arbitrum" then 3 / 10
  else if network = "optimism" then 1 / 10
  else if network = "polygon" then 1 / 20
  else 1 / 10

/-- Result record of `ArbitrageService.calculateProfit`.  The JavaScript
object stores the BigNumber fields via `toString()` and `profitPercentage`
via `toNumber()`; each is represented here by its numeric value. -/
structure ProfitResult where
  direction : String
  network : String
  baseToken : String
  quoteToken : String
  buyPrice : BigNum
  sellPrice : BigNum
  tradeAmount : BigNum
  estimatedProfit : BigNum
  profitPercentage : BigNum
  timestamp : ℤ
deriving DecidableEq

/-- `ArbitrageService.calculateProfit` (services/arbitrageService.js).  The
trade amount is fixed at 1 base token.  In the `dexToCex` branch the DEX
(buy-side) fee is `tradeAmount × 0.003` and the Binance (sell-side) fee is
`tradeAmount × sellPrice × 0.001`; in the other branch the Binance (buy-side)
fee is `tradeAmount × 0.001` and the DEX (sell-side) fee is
`tradeAmount × sellPrice × 0.003`.  `new Date().getTime()` is modelled by the
explicit clock argument `now`. -/
def calculateProfit (direction network baseToken quoteToken : String)
    (buyPrice sellPrice : ℚ) (now : ℤ) : ProfitResult :=
  let buyPriceBN := BigNum.num buyPrice
  let sellPriceBN := BigNum.num sellPrice
  let tradeAmount := BigNum.num 1
  let binanceFee :=
    if direction = "dexToCex"
    then bnMul (bnMul tradeAmount sellPriceBN) (BigNum.num (1 / 1000))
    else bnMul tradeAmount (BigNum.num (1 / 1000))
  let dexFee :=
    if direction = "dexToCex"
    then bnMul tradeAmount (BigNum.num (3 / 1000))
    else bnMul (bnMul tradeAmount sellPriceBN) (BigNum.num (3 / 1000))
  let gasCost := BigNum.num (gasCostFor network)
  let costToBuy :=
    if direction = "dexToCex"
    then bnAdd (bnMul tradeAmount buyPriceBN) dexFee
    else bnAdd (bnMul tradeAmount buyPriceBN) binanceFee
  let revenueFromSell :=
    if direction = "dexToCex"
    then bnSub (bnMul tradeAmount sellPriceBN) binanceFee
    else bnSub (bnMul tradeAmount sellPriceBN) dexFee
  let profit := bnSub (bnSub revenueFromSell costToBuy) gasCost
  let profitPercentage := bnMul (bnDiv profit costToBuy) (BigNum.num 100)
  { direction := direction, network := network, baseToken := baseToken,
    quoteToken := quoteToken, buyPrice := buyPriceBN, sellPrice := sellPriceBN,
    tradeAmount := tradeAmount, estimatedProfit := profit,
    profitPercentage := profitPercentage, timestamp := now }

/-- Result record of `BasicArbitrageStrategy.calculateSpread`; BigNumber
fields are represented by their numeric values as in `ProfitResult`
(`buyFee` and `sellFee` hold the fee rates, echoed back by the code). -/
structure SpreadResult where
  direction : String
  network : String
  baseToken : String
  quoteToken : String
  buyPrice : BigNum
  sellPrice : BigNum
  buyFee : BigNum
  sellFee : BigNum
  tradeSize : BigNum
  totalBuyCost : BigNum
  totalSellProceeds : BigNum
  gasCost : BigNum
  rawProfit : BigNum
  profitAfterGas : BigNum
  profitPercentage : BigNum
  timestamp : ℤ
deriving DecidableEq

/-- `BasicArbitrageStrategy.calculateSpread` (strategy module).  `buyFee`,
`sellFee`, `gasCost` and `tradeSize` are the option parameters (callers pass
the CEX/DEX fee rates and the per-network gas cost; the defaults are applied
at the call sites modelled).  `Date.now()` is the explicit clock argument
`now`. -/
def calculateSpread (buyPrice sellPrice : ℚ)
    (buyFee sellFee gasCost tradeSize : ℚ)
    (baseToken quoteToken network direction : String) (now : ℤ) : SpreadResult :=
  let buyPriceBN := BigNum.num buyPrice
  let sellPriceBN := BigNum.num sellPrice
  let tradeSizeBN := BigNum.num tradeSize
  let buyAmount := tradeSizeBN
  let buyCost := bnMul buyPriceBN buyAmount
  let buyFeeAmount := bnMul buyCost (BigNum.num buyFee)
  let totalBuyCost := bnAdd buyCost buyFeeAmount
  let sellProceeds := bnMul sellPriceBN buyAmount
  let sellFeeAmount := bnMul sellProceeds (BigNum.num sellFee)
  let totalSellProceeds := bnSub sellProceeds sellFeeAmount
  let gasCostBN := BigNum.num gasCost
  let rawProfit := bnSub totalSellProceeds totalBuyCost
  let profitAfterGas := bnSub rawProfit gasCostBN
  let profitPercentage := bnMul (bnDiv profitAfterGas totalBuyCost) (BigNum.num 100)
  { direction := direction, network := network, baseToken := baseToken,
    quoteToken := quoteToken, buyPrice := buyPriceBN, sellPrice := sellPriceBN,
    buyFee := BigNum.num buyFee, sellFee := BigNum.num sellFee,
    tradeSize := tradeSizeBN, totalBuyCost := totalBuyCost,
    totalSellProceeds := totalSellProceeds, gasCost := gasCostBN,
    rawProfit := rawProfit, profitAfterGas := profitAfterGas,
    profitPercentage := profitPercentage, timestamp := now }

/-!
## Opportunity scanner: retention and ranking

`ArbitrageService.findArbitrageOpportunities` pushes each computed result
whose `profitPercentage` is strictly greater than 0 onto the list, in
discovery order, and finally ranks the list with
`opportunities.sort((a, b) => b.profitPercentage - a.profitPercentage)`.
Since ES2019, `Array.prototype.sort` is required to be stable, and under the
JavaScript number semantics modelled by `BigNum` the comparator
`b.profitPercentage - a.profitPercentage` returns a value `> 0` exactly when
`jsGtB b.profitPercentage a.profitPercentage` (a NaN comparator value is
treated as 0 by the sort).  The sort is therefore modelled as the stable
insertion sort below, which moves an element past another exactly when the
other's key is strictly greater.
-/

/-- One step of the stable descending sort: insert `x` before the first
element whose `profitPercentage` is not strictly greater than
`x.profitPercentage`. -/
def insertByProfitDesc (x : ProfitResult) : List ProfitResult → List ProfitResult
  | [] => [x]
  | y :: ys =>
      if jsGtB y.profitPercentage x.profitPercentage
      then y :: insertByProfitDesc x ys
      else x :: y :: ys

/-- The stable sort `opportunities.sort((a, b) => b.profitPercentage -
a.profitPercentage)` of `findArbitrageOpportunities`. -/
def sortByProfitDesc (l : List ProfitResult) : List ProfitResult :=
  l.foldr insertByProfitDesc []

/-- Retention and ranking portion of
`ArbitrageService.findArbitrageOpportunities`, applied to the computed
spread results in discovery order: keep a result exactly when its
`profitPercentage > 0`, then sort by `profitPercentage` descending. -/
def findArbitrageOpportunities (results : List ProfitResult) : List ProfitResult :=
  sortByProfitDesc
    (results.filter (fun r => jsGtB r.profitPercentage (BigNum.num 0)))

/-- Execution selection in `ArbitrageService.runArbitrageLoop`: of the
opportunities returned by the scan, execute exactly those with
`opp.profitPercentage > config.trading.minimumProfitPercentage`. -/
def loopExecuteFilter (minimumProfitPercentage : ℚ)
    (opportunities : List ProfitResult) : List ProfitResult :=
  opportunities.filter
    (fun o => jsGtB o.profitPercentage (BigNum.num minimumProfitPercentage))

/-!
## Execution orchestrator

`ArbitrageService.executeArbitrage` wraps its whole body in try/catch: any
error thrown by a collaborator is caught, logged, and converted into the
return value `false`; on full success it returns `true`.  The Lean model
passes the per-call outcomes of the venue collaborators in explicitly and
additionally returns the ordered list of venue calls that were issued, so
that sequencing, absence of retries and absence of compensating calls are
visible in the theorems.
-/

/-- Outcome of `uniswap.executeTrade` when it resolves. -/
structure DexTradeResult where
  txHash : String
deriving DecidableEq

/-- Outcome of `binance.executeBuy` / `binance.executeSell` when they
resolve. -/
structure CexOrderResult where
  orderId : ℕ
deriving DecidableEq

/-- Per-execution outcomes of the collaborator calls
`ArbitrageService.executeArbitrage` can issue: each is either a resolved
value or a thrown error (`Except.error`). -/
structure VenueCalls where
  dexTrade : String → Except String DexTradeResult
  cexBuy : Except String CexOrderResult
  cexSell : Except String CexOrderResult
  normalizeQ : Except String String

/-- A venue call issued during one execution. -/
inductive LegCall where
  | dexTrade (side : String)
  | cexBuy
  | cexSell
deriving DecidableEq

/-- `ArbitrageService.executeArbitrage`.  For `direction = "dexToCex"`:
DEX buy, then CEX sell.  Otherwise (the code's `else` branch): Binance
`normalizeQuantity` (which may throw before any leg is issued), CEX buy,
then DEX sell.  The first component is the JavaScript return value
(`true` on success, `false` from the catch-all handler); the second is the
ordered list of venue calls issued. -/
def executeArbitrage (V : VenueCalls) (direction : String) :
    Bool × List LegCall :=
  if direction = "dexToCex" then
    match V.dexTrade "buy" with
    | .error _ => (false, [.dexTrade "buy"])
    | .ok _ =>
        match V.cexSell with
        | .error _ => (false, [.dexTrade "buy", .cexSell])
        | .ok _ => (true, [.dexTrade "buy", .cexSell])
  else
    match V.normalizeQ with
    | .error _ => (false, [])
    | .ok _ =>
        match V.cexBuy with
        | .error _ => (false, [.cexBuy])
        | .ok _ =>
            match V.dexTrade "sell" with
            | .error _ => (false, [.cexBuy, .dexTrade "sell"])
            | .ok _ => (true, [.cexBuy, .dexTrade "sell"])

/-!
## Chain-level model of `uniswap.executeTrade`

`UniswapDEX.executeTrade` looks up token addresses, quotes the three pool fee
tiers (500, 3000, 10000, in that order; a tier that throws is skipped),
throws if every tier returned 0, awaits the ERC20 `approve` transaction AND
its confirmation (`approveTx.wait()`), then submits the swap via
`exactInputSingle` and returns as soon as the submission resolves with a
transaction hash: it never calls `wait()` on the swap transaction, so the
returned result does not imply the swap is mined.  The model records every
blockchain interaction in order; `ChainAct.swapWait` exists in the action
type precisely so that theorems can state that the code never issues it.
-/

/-- Per-execution outcomes of the blockchain collaborators used by
`UniswapDEX.executeTrade`: token-address lookups (`none` models the throwing
lookup in config/tokens.js), the quoter result per (tokenIn, tokenOut, fee)
(`none` models a throwing tier, skipped by the loop), and the approve /
approve-wait / swap-submission outcomes (`none` models a thrown error). -/
structure ChainEnv where
  tokenAddress : String → String → Option String
  quote : String → String → ℕ → Option ℕ
  approveSubmitOutcome : Option Unit
  approveWaitOutcome : Option Unit
  swapSubmitOutcome : Option String

/-- One blockchain (or centralized-venue) interaction issued during a trade,
in submission order. -/
inductive ChainAct where
  | quoteCall (tokenIn tokenOut : String) (fee : ℕ)
  | approveSubmit (token : String)
  | approveWait
  | swapSubmit (tokenIn tokenOut : String) (fee : ℕ)
  | swapWait
  | cexSellCall
deriving DecidableEq

/-- Value of `uniswap.executeTrade` when it resolves: transaction hash,
amount in, and the best quoted amount out (`estimatedAmountOut`). -/
structure TradeResult where
  txHash : String
  amountIn : ℕ
  estimatedAmountOut : ℕ
deriving DecidableEq

/-- The fee tiers of `POOL_FEES`, iterated in object-literal insertion order
LOWEST, LOW, MEDIUM. -/
def poolFees : List ℕ := [500, 3000, 10000]

/-- The fee-tier loop of `executeTrade`: try each tier, skip throwing tiers,
and keep the strictly best amount out together with its fee (initial best 0
with the MEDIUM fee 10000 as default). -/
def quoteLoop (E : ChainEnv) (tokenIn tokenOut : String) :
    (ℕ × ℕ) × List ChainAct :=
  poolFees.foldl
    (fun (acc : (ℕ × ℕ) × List ChainAct) fee =>
      let tr := acc.2 ++ [ChainAct.quoteCall tokenIn tokenOut fee]
      match E.quote tokenIn tokenOut fee with
      | none => (acc.1, tr)
      | some amountOut =>
          (if acc.1.1 < amountOut then (amountOut, fee) else acc.1, tr))
    ((0, 10000), [])

/-- `UniswapDEX.executeTrade` (dex/uniswap.js).  The `buy` branch swaps
quote token for base token, the `sell` branch base for quote; any other
action throws.  `amountIn` stands for the `parseUnits` result in smallest
token units.  Note the returned pair's trace: the swap transaction is
submitted but never waited on. -/
def executeTrade (E : ChainEnv) (initialized : Bool)
    (network action baseToken quoteToken : String)
    (amountIn : ℕ) (slippagePercentage : ℚ) :
    Except String TradeResult × List ChainAct :=
  if initialized = false then
    (.error "Uniswap DEX adapter not initialized", [])
  else
    match E.tokenAddress network baseToken, E.tokenAddress network quoteToken with
    | some baseAddr, some quoteAddr =>
        if action = "buy" ∨ action = "sell" then
          let tokenIn := if action = "buy" then quoteAddr else baseAddr
          let tokenOut := if action = "buy" then baseAddr else quoteAddr
          let q := quoteLoop E tokenIn tokenOut
          let best := q.1.1
          let bestFee := q.1.2
          let tr := q.2
          if best = 0 then
            (.error ("No valid pool found for " ++ baseToken ++ "/" ++
              quoteToken ++ " on " ++ network), tr)
          else
            let _minAmountOut : ℤ :=
              (best : ℤ) * (1000 - ⌊slippagePercentage * 10⌋) / 1000
            match E.approveSubmitOutcome with
            | none => (.error "approve submission failed",
                tr ++ [ChainAct.approveSubmit tokenIn])
            | some _ =>
                match E.approveWaitOutcome with
                | none => (.error "approve confirmation failed",
                    tr ++ [ChainAct.approveSubmit tokenIn, ChainAct.approveWait])
                | some _ =>
                    match E.swapSubmitOutcome with
                    | none => (.error "swap submission failed",
                        tr ++ [ChainAct.approveSubmit tokenIn,
                          ChainAct.approveWait,
                          ChainAct.swapSubmit tokenIn tokenOut bestFee])
                    | some txHash =>
                        (.ok ⟨txHash, amountIn, best⟩,
                         tr ++ [ChainAct.approveSubmit tokenIn,
                           ChainAct.approveWait,
                           ChainAct.swapSubmit tokenIn tokenOut bestFee])
        else
          (.error ("Invalid action: " ++ action), [])
    | _, _ => (.error "Token not found for network", [])

/-- The `dexToCex` branch of `ArbitrageService.executeArbitrage` at
blockchain granularity: Leg1 is `uniswap.executeTrade(network, 'buy', ...)`,
and as soon as it resolves — the swap transaction being submitted, not
mined — Leg2 `binance.executeSell` is issued. -/
def executeArbitrageDexToCexChain (E : ChainEnv) (initialized : Bool)
    (network baseToken quoteToken : String) (amountIn : ℕ)
    (slippagePercentage : ℚ) (cexSell : Except String CexOrderResult) :
    Bool × List ChainAct :=
  match executeTrade E initialized network "buy" baseToken quoteToken
      amountIn slippagePercentage with
  | (.error _, tr) => (false, tr)
  | (.ok _, tr) =>
      match cexSell with
      | .error _ => (false, tr ++ [ChainAct.cexSellCall])
      | .ok _ => (true, tr ++ [ChainAct.cexSellCall])

/-!
## Decentralized-price lookup with cache

`ArbitrageService.getDexPrice` consults a NodeCache created with
`stdTTL: 60`; `cache.get` returns the stored value or `undefined`, and the
code's `if (cachedPrice)` treats any falsy value (a miss, or an empty
string) as a miss.  On a miss it awaits `uniswap.getPrice` — which throws on
failure and otherwise returns a (nonempty) price string — caches the result
under the default TTL and returns it; a thrown error is caught and turned
into `null`.
-/

/-- A cache entry: the stored price string and the TTL (seconds) it was
stored under (`stdTTL: 60` for entries set without an explicit TTL). -/
structure CacheEntry where
  value : String
  ttlSeconds : ℕ
deriving DecidableEq

/-- The cache key `dexPrice:${network}:${baseToken}-${quoteToken}`. -/
def dexPriceCacheKey (network baseToken quoteToken : String) : String :=
  "dexPrice:" ++ network ++ ":" ++ baseToken ++ "-" ++ quoteToken

/-- The fetch-and-cache path of `getDexPrice` (cache miss): call
`uniswap.getPrice`; on success store the price with the cache's fixed TTL of
60 seconds and return it; on a thrown error return `null` with the cache
untouched. -/
def getDexPriceFresh (uniswapGetPrice : Except String String)
    (cache : String → Option CacheEntry) (cacheKey : String) :
    Option String × (String → Option CacheEntry) :=
  match uniswapGetPrice with
  | .ok price =>
      (some price,
       fun k => if k = cacheKey then some ⟨price, 60⟩ else cache k)
  | .error _ => (none, cache)

/-- `ArbitrageService.getDexPrice`: return the cached value when the cache
holds a truthy (nonempty) string for the key, otherwise fetch, cache and
return fresh; an adapter error yields `none` (JavaScript `null`).  Returns
the value together with the updated cache. -/
def getDexPrice (uniswapGetPrice : Except String String)
    (cache : String → Option CacheEntry)
    (network baseToken quoteToken : String) :
    Option String × (String → Option CacheEntry) :=
  let cacheKey := dexPriceCacheKey network baseToken quoteToken
  match cache cacheKey with
  | some entry =>
      if entry.value ≠ "" then (some entry.value, cache)
      else getDexPriceFresh uniswapGetPrice cache cacheKey
  | none => getDexPriceFresh uniswapGetPrice cache cacheKey

/-!
## Binance quantity normalization
-/

/-- The per-symbol exchange information extracted by
`BinanceExchange.initialize` (the numeric filter values; the raw filter list
and asset names are not used by `normalizeQuantity`). -/
structure SymbolInfo where
  stepSize : ℚ
  tickSize : ℚ
  minNotional : ℚ
deriving DecidableEq

/-- `BinanceExchange.normalizeQuantity`: throws `Symbol info not found`
when the symbol has no loaded info, otherwise returns
`new BigNumber(quantity).dividedToIntegerBy(stepSize).multipliedBy(stepSize)`
(as a string in the source; represented by its value). -/
def normalizeQuantity (symbolInfo : String → Option SymbolInfo)
    (symbol : String) (quantity : ℚ) : Except String BigNum :=
  match symbolInfo symbol with
  | none => .error ("Symbol info not found for " ++ symbol)
  | some info =>
      .ok (bnMul (bnDivInt (BigNum.num quantity) (BigNum.num info.stepSize))
            (BigNum.num info.stepSize))

/-!
## Properties of the JavaScript comparison and the stable sort
-/

/-- JavaScript `>` is irreflexive on numbers. -/
theorem jsGtB_irrefl (a : BigNum) : jsGtB a a = false := by
  cases a <;> simp [jsGtB]

/-- JavaScript `>` is asymmetric on numbers. -/
theorem jsGtB_asymm {a b : BigNum} (h : jsGtB a b = true) :
    jsGtB b a = false := by
  cases a <;> cases b <;> simp_all [jsGtB]
  linarith

/-- On non-NaN numbers, the negation of JavaScript `>` is transitive. -/
theorem jsGtB_false_trans {a b c : BigNum} (ha : a ≠ BigNum.nan)
    (hb : b ≠ BigNum.nan) (hc : c ≠ BigNum.nan)
    (h1 : jsGtB b a = false) (h2 : jsGtB c b = false) :
    jsGtB c a = false := by
  cases a <;> cases b <;> cases c <;> simp_all [jsGtB]
  linarith

/-- A value strictly greater than a finite number is not NaN. -/
theorem jsGtB_num_ne_nan {a : BigNum} {c : ℚ}
    (h : jsGtB a (BigNum.num c) = true) : a ≠ BigNum.nan := by
  cases a <;> simp_all [jsGtB]

/-- Membership in an insertion step. -/
theorem mem_insertByProfitDesc {z x : ProfitResult} {l : List ProfitResult} :
    z ∈ insertByProfitDesc x l ↔ z = x ∨ z ∈ l := by
  induction l with
  | nil => simp [insertByProfitDesc]
  | cons y ys ih =>
      by_cases h : jsGtB y.profitPercentage x.profitPercentage = true
      · simp only [insertByProfitDesc, h, if_true, List.mem_cons, ih]
        tauto
      · rw [Bool.not_eq_true] at h
        simp only [insertByProfitDesc, h, Bool.false_eq_true, if_false,
          List.mem_cons]

/-- The sort permutes the list: membership is preserved. -/
theorem mem_sortByProfitDesc {z : ProfitResult} {l : List ProfitResult} :
    z ∈ sortByProfitDesc l ↔ z ∈ l := by
  induction l with
  | nil => simp [sortByProfitDesc]
  | cons y ys ih =>
      show z ∈ insertByProfitDesc y (sortByProfitDesc ys) ↔ _
      rw [mem_insertByProfitDesc]
      simp [ih]

/-- Inserting preserves pairwise descending order (all keys non-NaN). -/
theorem pairwise_insertByProfitDesc {x : ProfitResult} {l : List ProfitResult}
    (hx : x.profitPercentage ≠ BigNum.nan)
    (hl : ∀ z ∈ l, z.profitPercentage ≠ BigNum.nan)
    (hp : List.Pairwise
      (fun a b => jsGtB b.profitPercentage a.profitPercentage = false) l) :
    List.Pairwise
      (fun a b => jsGtB b.profitPercentage a.profitPercentage = false)
      (insertByProfitDesc x l) := by
  induction l with
  | nil => simp [insertByProfitDesc]
  | cons y ys ih =>
      rcases List.pairwise_cons.mp hp with ⟨hy, hys⟩
      by_cases h : jsGtB y.profitPercentage x.profitPercentage = true
      · rw [insertByProfitDesc, if_pos h]
        refine List.pairwise_cons.mpr ⟨?_, ?_⟩
        · intro z hz
          rcases mem_insertByProfitDesc.mp hz with rfl | hz'
          · exact jsGtB_asymm h
          · exact hy z hz'
        · exact ih (fun z hz => hl z (List.mem_cons_of_mem y hz)) hys
      · rw [Bool.not_eq_true] at h
        rw [insertByProfitDesc, if_neg (by simp [h])]
        refine List.pairwise_cons.mpr ⟨?_, hp⟩
        intro z hz
        rcases List.mem_cons.mp hz with rfl | hz'
        · exact h
        · exact jsGtB_false_trans hx (hl y (List.mem_cons_self y ys))
            (hl z (List.mem_cons_of_mem y hz')) h (hy z hz')

/-- The sort's output is pairwise descending by `profitPercentage` whenever
no key is NaN. -/
theorem pairwise_sortByProfitDesc {l : List ProfitResult}
    (hl : ∀ z ∈ l, z.profitPercentage ≠ BigNum.nan) :
    List.Pairwise
      (fun a b => jsGtB b.profitPercentage a.profitPercentage = false)
      (sortByProfitDesc l) := by
  induction l with
  | nil => simp [sortByProfitDesc]
  | cons y ys ih =>
      show List.Pairwise _ (insertByProfitDesc y (sortByProfitDesc ys))
      refine pairwise_insertByProfitDesc
        (hl y (List.mem_cons_self y ys)) ?_
        (ih (fun z hz => hl z (List.mem_cons_of_mem y hz)))
      intro z hz
      exact hl z (List.mem_cons_of_mem y (mem_sortByProfitDesc.mp hz))

/-- Stability of one insertion step, characterized by filtering on any one
key: the inserted element lands in front of exactly the equal-keyed
elements. -/
theorem filter_insertByProfitDesc (q : BigNum) (x : ProfitResult)
    (l : List ProfitResult) :
    (insertByProfitDesc x l).filter (fun r => decide (r.profitPercentage = q)) =
      if x.profitPercentage = q
      then x :: l.filter (fun r => decide (r.profitPercentage = q))
      else l.filter (fun r => decide (r.profitPercentage = q)) := by
  induction l with
  | nil => simp [insertByProfitDesc, List.filter_cons]
  | cons y ys ih =>
      by_cases h : jsGtB y.profitPercentage x.profitPercentage = true
      · rw [insertByProfitDesc, if_pos h]
        by_cases hxq : x.profitPercentage = q
        · have hyq : y.profitPercentage ≠ q := by
            intro hyq
            rw [hxq] at h
            rw [hyq] at h
            rw [jsGtB_irrefl] at h
            exact Bool.false_ne_true h
          simp [List.filter_cons, hxq, hyq, ih]
        · by_cases hyq : y.profitPercentage = q <;>
            simp [List.filter_cons, hxq, hyq, ih]
      · rw [Bool.not_eq_true] at h
        rw [insertByProfitDesc, if_neg (by simp [h])]
        by_cases hxq : x.profitPercentage = q <;>
          simp [List.filter_cons, hxq]

/-- Stability of the whole sort: for every key, the equal-keyed entries
appear in the output in exactly their input order. -/
theorem filter_sortByProfitDesc (q : BigNum) (l : List ProfitResult) :
    (sortByProfitDesc l).filter (fun r => decide (r.profitPercentage = q)) =
      l.filter (fun r => decide (r.profitPercentage = q)) := by
  induction l with
  | nil => simp [sortByProfitDesc]
  | cons y ys ih =>
      show (insertByProfitDesc y (sortByProfitDesc ys)).filter _ = _
      rw [filter_insertByProfitDesc]
      by_cases hyq : y.profitPercentage = q <;>
        simp [List.filter_cons, hyq, ih]

/-!
## Claim C2 and C8: retention threshold and ranking
-/

/-- A computed result with `profitPercentage = 0.3`: strictly positive, but
not above a configured `minimumProfitPercentage` of 0.5. -/
def oppLowProfit : ProfitResult :=
  { direction := "dexToCex", network := "ethereum", baseToken := "ETH",
    quoteToken := "USDT", buyPrice := BigNum.num 100,
    sellPrice := BigNum.num 101, tradeAmount := BigNum.num 1,
    estimatedProfit := BigNum.num (3 / 10),
    profitPercentage := BigNum.num (3 / 10), timestamp := 0 }

/-- C2, counterexample: with `minimumProfitPercentage = 0.5`, a result with
`profitPercentage = 0.3` IS retained in the list returned by
`findArbitrageOpportunities` (and hence placed in the ledger), although its
profit percentage does not exceed the configured minimum — the retention
test of the scan is `profitPercentage > 0`, not `> minimumProfitPercentage`;
the configured minimum is only applied by the loop's execution filter. -/
theorem C2_counterexample :
    oppLowProfit ∈ findArbitrageOpportunities [oppLowProfit]
    ∧ jsGtB oppLowProfit.profitPercentage (BigNum.num (1 / 2)) = false
    ∧ oppLowProfit ∉
        loopExecuteFilter (1 / 2) (findArbitrageOpportunities [oppLowProfit]) := by
  refine ⟨?_, ?_, ?_⟩
  · norm_num [findArbitrageOpportunities, sortByProfitDesc, insertByProfitDesc,
      List.filter_cons, List.foldr, jsGtB, oppLowProfit]
  · norm_num [jsGtB, oppLowProfit]
  · norm_num [findArbitrageOpportunities, sortByProfitDesc, insertByProfitDesc,
      loopExecuteFilter, List.filter_cons, List.foldr, jsGtB, oppLowProfit]

/-- C2 (amended): a computed spread result is retained in the returned
opportunity list (and hence placed in the ledger) if and only if its
`profitPercentage` is strictly greater than 0; the strict comparison against
the configured `minimumProfitPercentage` is applied separately by the scan
loop when selecting which retained opportunities to execute, so a result
exactly at either threshold is excluded by the corresponding filter. -/
theorem C2_amended_retention_and_execution_thresholds :
    (∀ (results : List ProfitResult) (r : ProfitResult),
      r ∈ findArbitrageOpportunities results ↔
        r ∈ results ∧ jsGtB r.profitPercentage (BigNum.num 0) = true)
    ∧ (∀ (minimumProfitPercentage : ℚ) (opportunities : List ProfitResult)
        (r : ProfitResult),
      r ∈ loopExecuteFilter minimumProfitPercentage opportunities ↔
        r ∈ opportunities ∧
          jsGtB r.profitPercentage (BigNum.num minimumProfitPercentage) = true) := by
  constructor
  · intro results r
    rw [findArbitrageOpportunities, mem_sortByProfitDesc, List.mem_filter]
  · intro minP opportunities r
    rw [loopExecuteFilter, List.mem_filter]

/-- Distinct retained results realizing the profit percentages
[1.2, 3.4, 3.4, 0.9] in discovery order (the two 3.4 entries differ in
network and timestamp). -/
def oppRank1 : ProfitResult :=
  { direction := "dexToCex", network := "ethereum", baseToken := "ETH",
    quoteToken := "USDT", buyPrice := BigNum.num 100,
    sellPrice := BigNum.num 102, tradeAmount := BigNum.num 1,
    estimatedProfit := BigNum.num 1,
    profitPercentage := BigNum.num (12 / 10), timestamp := 1 }

/-- Second discovery: the first of the two 3.4 entries. -/
def oppRank2 : ProfitResult :=
  { oppRank1 with network := "arbitrum", profitPercentage := BigNum.num (34 / 10), timestamp := 2 }

/-- Third discovery: the second of the two 3.4 entries. -/
def oppRank3 : ProfitResult :=
  { oppRank1 with network := "optimism", profitPercentage := BigNum.num (34 / 10), timestamp := 3 }

/-- Fourth discovery: the 0.9 entry. -/
def oppRank4 : ProfitResult :=
  { oppRank1 with network := "polygon", profitPercentage := BigNum.num (9 / 10), timestamp := 4 }

/-- C8 (confirmed): the scan's returned opportunity list is sorted by
`profitPercentage` descending by a stable sort — pairwise no later entry has
a strictly greater profit percentage, and for every key the equal-keyed
entries appear in exactly their discovery order — and on retained profit
percentages [1.2, 3.4, 3.4, 0.9] (the 3.4 entries distinct) the result
places both 3.4 entries first, preserving their relative order, followed by
1.2 and 0.9. -/
theorem C8_ranking_descending_and_stable :
    (∀ results : List ProfitResult,
      List.Pairwise
        (fun a b => jsGtB b.profitPercentage a.profitPercentage = false)
        (findArbitrageOpportunities results))
    ∧ (∀ (results : List ProfitResult) (q : BigNum),
      (findArbitrageOpportunities results).filter
          (fun r => decide (r.profitPercentage = q)) =
        (results.filter
            (fun r => jsGtB r.profitPercentage (BigNum.num 0))).filter
          (fun r => decide (r.profitPercentage = q)))
    ∧ findArbitrageOpportunities [oppRank1, oppRank2, oppRank3, oppRank4]
        = [oppRank2, oppRank3, oppRank1, oppRank4] := by
  refine ⟨?_, ?_, ?_⟩
  · intro results
    apply pairwise_sortByProfitDesc
    intro z hz
    exact jsGtB_num_ne_nan (List.mem_filter.mp hz).2
  · intro results q
    exact filter_sortByProfitDesc q _
  · norm_num [findArbitrageOpportunities, sortByProfitDesc, insertByProfitDesc,
      List.filter_cons, List.foldr, jsGtB, oppRank1, oppRank2, oppRank3,
      oppRank4]

/-!
## Claims C1, C5, C6, C7: the spread computation
-/

/-- C1 (code_bug): at buyPrice 1.999, sellPrice 4, direction `cexToDex` on
polygon, `calculateProfit` computes the buy-side fee on the trade amount
(`1 × 0.001 = 0.001`) instead of on the buy cost (`1.999 × 0.001`), so its
cost to buy is 2 and it returns estimated profit 1.938 and profit percentage
96.9, while the algorithm the claim states (buyFee = buyCost × buyFeeRate,
sellFee = sellProceeds × sellFeeRate) yields profit 1.937001 and profit
percentage 1.937001 / 2.000999 × 100, both different. -/
theorem C1_calculateProfit_buy_fee_on_amount :
    (calculateProfit "cexToDex" "polygon" "ETH" "USDT"
        (1999 / 1000) 4 0).estimatedProfit = BigNum.num (969 / 500)
    ∧ (calculateProfit "cexToDex" "polygon" "ETH" "USDT"
        (1999 / 1000) 4 0).profitPercentage = BigNum.num (969 / 10)
    ∧ (969 / 500 : ℚ) ≠
        4 * 1 * (1 - 3 / 1000) - 1999 / 1000 * 1 * (1 + 1 / 1000) - 1 / 20
    ∧ (969 / 10 : ℚ) ≠
        (4 * 1 * (1 - 3 / 1000) - 1999 / 1000 * 1 * (1 + 1 / 1000) - 1 / 20)
          / (1999 / 1000 * 1 * (1 + 1 / 1000)) * 100 := by
  have hr : roundHalfUp20 (969 / 1000) = 969 / 1000 :=
    roundHalfUp20_eq_self _ (969 * 10 ^ 17) (by norm_num)
  refine ⟨?_, ?_, ?_, ?_⟩
  · simp only [calculateProfit, gasCostFor, String.reduceEq, reduceIte]
    norm_num [bnMul, bnAdd, bnSub, bnNeg]
  · simp only [calculateProfit, gasCostFor, String.reduceEq, reduceIte]
    norm_num [bnMul, bnAdd, bnSub, bnNeg, bnDiv, hr]
  · norm_num
  · norm_num

/-- C5, counterexample: on buyPrice 3, sellPrice 4, zero fees and gas, trade
size 1, the record's own fields give rawProfit 1, gasCost 0, totalBuyCost 3,
yet `profitPercentage` is NOT `(1 - 0) / 3 × 100`: BigNumber division
rounds the quotient 1/3 to 20 decimal places before multiplying by 100, so
the exact-invariant clause of the claim fails. -/
theorem C5_counterexample :
    (calculateSpread 3 4 0 0 0 1 "ETH" "USDT" "ethereum" "cexToDex"
        0).totalBuyCost = BigNum.num 3
    ∧ (calculateSpread 3 4 0 0 0 1 "ETH" "USDT" "ethereum" "cexToDex"
        0).gasCost = BigNum.num 0
    ∧ (calculateSpread 3 4 0 0 0 1 "ETH" "USDT" "ethereum" "cexToDex"
        0).rawProfit = BigNum.num 1
    ∧ (calculateSpread 3 4 0 0 0 1 "ETH" "USDT" "ethereum" "cexToDex"
        0).profitPercentage ≠ BigNum.num ((1 - 0) / 3 * 100) := by
  have h3 : (⌊(1 / 3 : ℚ) * 10 ^ 20 + 1 / 2⌋ : ℤ) = 33333333333333333333 := by
    rw [Int.floor_eq_iff]
    norm_num
  have hr : roundHalfUp20 (1 / 3 : ℚ) = 33333333333333333333 / 10 ^ 20 := by
    unfold roundHalfUp20
    rw [if_neg (by norm_num), h3]
    norm_num
  refine ⟨?_, ?_, ?_, ?_⟩
  · norm_num [calculateSpread, bnMul, bnAdd, bnSub, bnNeg]
  · norm_num [calculateSpread, bnMul, bnAdd, bnSub, bnNeg]
  · norm_num [calculateSpread, bnMul, bnAdd, bnSub, bnNeg]
  · norm_num [calculateSpread, bnMul, bnAdd, bnSub, bnNeg, bnDiv, hr]

/-- C5 (amended): all money-valued fields of the spread result are exact
decimals satisfying the spec's algebra, but `profitPercentage` is the
20-decimal-place half-up rounding of `profitAfterGas / totalBuyCost`
multiplied by 100 (and the source further converts it to a native float via
`toNumber()` before any threshold comparison), so the invariant
`profitPercentage = (rawProfit − gasCost) / totalBuyCost × 100` holds
exactly only when the quotient terminates within 20 decimal places. -/
theorem C5_amended_fields_exact_percentage_rounded
    (bp sp bf sf gas ts : ℚ) (bt qt nw dir : String) (now : ℤ)
    (h : bp * ts + bp * ts * bf ≠ 0) :
    (calculateSpread bp sp bf sf gas ts bt qt nw dir now).totalBuyCost
        = BigNum.num (bp * ts * (1 + bf))
    ∧ (calculateSpread bp sp bf sf gas ts bt qt nw dir now).totalSellProceeds
        = BigNum.num (sp * ts * (1 - sf))
    ∧ (calculateSpread bp sp bf sf gas ts bt qt nw dir now).rawProfit
        = BigNum.num (sp * ts * (1 - sf) - bp * ts * (1 + bf))
    ∧ (calculateSpread bp sp bf sf gas ts bt qt nw dir now).profitAfterGas
        = BigNum.num (sp * ts * (1 - sf) - bp * ts * (1 + bf) - gas)
    ∧ (calculateSpread bp sp bf sf gas ts bt qt nw dir now).profitPercentage
        = BigNum.num (roundHalfUp20
            ((sp * ts * (1 - sf) - bp * ts * (1 + bf) - gas)
              / (bp * ts * (1 + bf))) * 100) := by
  refine ⟨?_, ?_, ?_, ?_, ?_⟩
  · simp only [calculateSpread, bnMul, bnAdd]
    congr 1
    ring
  · simp only [calculateSpread, bnMul, bnSub, bnNeg, bnAdd]
    congr 1
    ring
  · simp only [calculateSpread, bnMul, bnSub, bnNeg, bnAdd]
    congr 1
    ring
  · simp only [calculateSpread, bnMul, bnSub, bnNeg, bnAdd]
    congr 1
    ring
  · simp only [calculateSpread, bnMul, bnSub, bnNeg, bnAdd, bnDiv]
    rw [if_neg h]
    simp only [bnMul]
    congr 1
    have e1 : bp * ts + bp * ts * bf = bp * ts * (1 + bf) := by ring
    rw [e1]
    congr 1
    ring_nf

/-- A trivial clock-erasing projection used to state determinism of the
non-timestamp fields. -/
def stripTimestampS (r : SpreadResult) : SpreadResult := { r with timestamp := 0 }

/-- Clock-erasing projection for `ProfitResult`. -/
def stripTimestampP (r : ProfitResult) : ProfitResult := { r with timestamp := 0 }

/-- C6, counterexample: two calls to the spread calculator with identical
price/fee arguments made at clock times 0 and 1 return records that are NOT
identical — the returned object embeds the wall-clock `timestamp`
(`Date.now()` / `new Date().getTime()`), a hidden time-dependent input, so
the output is not a function of the arguments alone. -/
theorem C6_counterexample :
    calculateSpread 100 102 (1 / 1000) (3 / 1000) (1 / 10) 1
        "ETH" "USDT" "ethereum" "cexToDex" 0
      ≠ calculateSpread 100 102 (1 / 1000) (3 / 1000) (1 / 10) 1
        "ETH" "USDT" "ethereum" "cexToDex" 1 := by
  intro h
  have ht := congrArg SpreadResult.timestamp h
  norm_num [calculateSpread] at ht

/-- C6 (amended): every field of the records returned by `calculateSpread`
and `calculateProfit` other than `timestamp` is a deterministic function of
the arguments alone — two calls with identical arguments agree on all of
them — while the `timestamp` field equals the clock at the moment of the
call and therefore differs between calls made at different times. -/
theorem C6_amended_deterministic_except_timestamp
    (bp sp bf sf gas ts : ℚ) (bt qt nw dir : String)
    (d n b q : String) (bp2 sp2 : ℚ) (t1 t2 : ℤ) :
    stripTimestampS (calculateSpread bp sp bf sf gas ts bt qt nw dir t1)
        = stripTimestampS (calculateSpread bp sp bf sf gas ts bt qt nw dir t2)
    ∧ (calculateSpread bp sp bf sf gas ts bt qt nw dir t1).timestamp = t1
    ∧ stripTimestampP (calculateProfit d n b q bp2 sp2 t1)
        = stripTimestampP (calculateProfit d n b q bp2 sp2 t2)
    ∧ (calculateProfit d n b q bp2 sp2 t1).timestamp = t1 :=
  ⟨rfl, rfl, rfl, rfl⟩

/-- C7, counterexample: with buyPrice 0 (so totalBuyCost = 0) the spread
computation raises no malformed-input error: it returns a normal record
whose `profitPercentage` is silently +Infinity (BigNumber's division by
zero), contradicting the claim that this case fails explicitly. -/
theorem C7_counterexample :
    (calculateSpread 0 1 (1 / 1000) (1 / 1000) 0 1
        "ETH" "USDT" "ethereum" "dexToCex" 0).totalBuyCost = BigNum.num 0
    ∧ (calculateSpread 0 1 (1 / 1000) (1 / 1000) 0 1
        "ETH" "USDT" "ethereum" "dexToCex" 0).profitPercentage
      = BigNum.posInf := by
  constructor
  · norm_num [calculateSpread, bnMul, bnAdd, bnSub, bnNeg]
  · norm_num [calculateSpread, bnMul, bnAdd, bnSub, bnNeg, bnDiv]

/-- C7 (amended): when `totalBuyCost = 0` the spread computation does not
fail: BigNumber division by zero silently yields +Infinity, −Infinity or NaN
as `profitPercentage` according to the sign of the profit after gas; when
`totalBuyCost ≠ 0` the profit percentage is a finite number (no error is
raised on any input — the function is total). -/
theorem C7_amended_zero_cost_division_is_silent
    (bp sp bf sf gas ts : ℚ) (bt qt nw dir : String) (now : ℤ) :
    (bp * ts + bp * ts * bf = 0 →
      (calculateSpread bp sp bf sf gas ts bt qt nw dir now).profitPercentage
        = (if 0 < sp * ts - sp * ts * sf - gas then BigNum.posInf
           else if sp * ts - sp * ts * sf - gas < 0 then BigNum.negInf
           else BigNum.nan))
    ∧ (bp * ts + bp * ts * bf ≠ 0 →
      ∃ p : ℚ,
        (calculateSpread bp sp bf sf gas ts bt qt nw dir now).profitPercentage
          = BigNum.num p) := by
  constructor
  · intro h
    simp only [calculateSpread, bnMul, bnSub, bnNeg, bnAdd, bnDiv]
    rw [if_pos h]
    have hP : sp * ts + -(sp * ts * sf) + -(bp * ts + bp * ts * bf) + -gas
        = sp * ts - sp * ts * sf - gas := by rw [h]; ring
    rw [hP]
    split_ifs with h1 h2
    all_goals norm_num [bnMul]
  · intro h
    refine ⟨roundHalfUp20
      ((sp * ts + -(sp * ts * sf) + -(bp * ts + bp * ts * bf) + -gas)
        / (bp * ts + bp * ts * bf)) * 100, ?_⟩
    simp only [calculateSpread, bnMul, bnSub, bnNeg, bnAdd, bnDiv]
    rw [if_neg h]

/-- C5, witness: the amended theorem applied at buyPrice 3, sellPrice 4,
zero fees and gas, trade size 1 (totalBuyCost 3 ≠ 0). -/
theorem C5_amended_witness :
    (calculateSpread 3 4 0 0 0 1 "ETH" "USDT" "ethereum" "cexToDex"
        0).profitPercentage
      = BigNum.num (roundHalfUp20
          ((4 * 1 * (1 - 0) - 3 * 1 * (1 + 0) - 0) / (3 * 1 * (1 + 0)))
            * 100) :=
  (C5_amended_fields_exact_percentage_rounded 3 4 0 0 0 1
    "ETH" "USDT" "ethereum" "cexToDex" 0 (by norm_num)).2.2.2.2

/-- C7, witness: the amended theorem applied at buyPrice 0 (totalBuyCost 0)
with sellPrice 2 and gas 3, where the profit after gas is negative, and at
buyPrice 3 (totalBuyCost nonzero), where the result is finite. -/
theorem C7_amended_witness :
    (calculateSpread 0 2 0 0 3 1 "ETH" "USDT" "ethereum" "dexToCex"
        0).profitPercentage = BigNum.negInf
    ∧ ∃ p : ℚ, (calculateSpread 3 4 0 0 0 1 "ETH" "USDT" "polygon" "dexToCex"
        0).profitPercentage = BigNum.num p := by
  constructor
  · have h := (C7_amended_zero_cost_division_is_silent 0 2 0 0 3 1
      "ETH" "USDT" "ethereum" "dexToCex" 0).1 (by norm_num)
    norm_num at h
    exact h
  · exact (C7_amended_zero_cost_division_is_silent 3 4 0 0 0 1
      "ETH" "USDT" "polygon" "dexToCex" 0).2 (by norm_num)

/-!
## Claim C3: orchestrator failure handling
-/

/-- Venue outcomes in which Leg1 (the DEX buy) itself throws. -/
def legOneFailsCalls : VenueCalls :=
  { dexTrade := fun _ => .error "dex rejected",
    cexBuy := .ok ⟨1⟩, cexSell := .ok ⟨2⟩, normalizeQ := .ok "1" }

/-- Venue outcomes in which Leg1 succeeds and Leg2 (the CEX sell) throws. -/
def legTwoFailsCalls : VenueCalls :=
  { dexTrade := fun _ => .ok ⟨"0xleg1"⟩,
    cexBuy := .ok ⟨1⟩, cexSell := .error "cex rejected", normalizeQ := .ok "1" }

/-- C3, counterexample: when Leg1 succeeds and Leg2 throws, the value
`executeArbitrage` returns is the bare boolean `false` — exactly the same
value it returns when Leg1 itself fails — so the returned outcome is not an
`ExecutionOutcome` record with `failureStage = Leg2` and a populated
`leg1Result` as the claim states: the function cannot convey either. -/
theorem C3_counterexample :
    (executeArbitrage legTwoFailsCalls "dexToCex").1 = false
    ∧ (executeArbitrage legOneFailsCalls "dexToCex").1 = false
    ∧ (executeArbitrage legTwoFailsCalls "dexToCex").1
        = (executeArbitrage legOneFailsCalls "dexToCex").1 := by
  refine ⟨?_, ?_, ?_⟩ <;>
    simp [executeArbitrage, legTwoFailsCalls, legOneFailsCalls]

/-- C3 (amended): `executeArbitrage` is total — every collaborator error is
caught and converted into the return value `false` — and whenever Leg1
succeeds and Leg2 throws (in either direction) it returns exactly `false`
with the venue-call trace containing Leg1 once followed by Leg2 once: the
Leg1 side effect is neither retried nor rolled back, but the bare boolean
return carries no failure stage and no Leg1 result. -/
theorem C3_amended_leg2_failure_returns_false (V : VenueCalls) :
    (∀ (r : DexTradeResult) (e : String),
      V.dexTrade "buy" = .ok r → V.cexSell = .error e →
      executeArbitrage V "dexToCex"
        = (false, [LegCall.dexTrade "buy", LegCall.cexSell]))
    ∧ (∀ (s : String) (r : CexOrderResult) (e : String),
      V.normalizeQ = .ok s → V.cexBuy = .ok r → V.dexTrade "sell" = .error e →
      executeArbitrage V "cexToDex"
        = (false, [LegCall.cexBuy, LegCall.dexTrade "sell"])) := by
  constructor
  · intro r e h1 h2
    simp [executeArbitrage, h1, h2]
  · intro s r e h1 h2 h3
    simp [executeArbitrage, h1, h2, h3]

/-- C3, witness: the amended theorem applied to the concrete Leg2-failure
scenario. -/
theorem C3_amended_witness :
    executeArbitrage legTwoFailsCalls "dexToCex"
      = (false, [LegCall.dexTrade "buy", LegCall.cexSell]) :=
  (C3_amended_leg2_failure_returns_false legTwoFailsCalls).1
    ⟨"0xleg1"⟩ "cex rejected" rfl rfl

/-!
## Claim C4: leg sequencing and (absence of) settlement confirmation
-/

/-- The trace of the fee-tier loop is one quoter call per tier, in tier
order, whatever the quoter returns. -/
theorem quoteLoop_trace (E : ChainEnv) (tin tout : String) :
    (quoteLoop E tin tout).2 = poolFees.map (ChainAct.quoteCall tin tout) := by
  simp only [quoteLoop, poolFees, List.foldl, List.map]
  rcases E.quote tin tout 500 with _ | a <;>
    rcases E.quote tin tout 3000 with _ | b <;>
      rcases E.quote tin tout 10000 with _ | c <;> simp

/-- `uniswap.executeTrade` never waits on the swap transaction: no execution
path emits `ChainAct.swapWait`.  (It does wait on the ERC20 approval —
`approveTx.wait()` — but returns immediately once the swap submission
resolves.) -/
theorem executeTrade_no_swapWait (E : ChainEnv) (init : Bool)
    (nw act b q : String) (amt : ℕ) (s : ℚ) :
    ChainAct.swapWait ∉ (executeTrade E init nw act b q amt s).2 := by
  have hq : ∀ tin tout, ChainAct.swapWait ∉ (quoteLoop E tin tout).2 := by
    intro tin tout
    rw [quoteLoop_trace]
    simp [poolFees]
  simp only [executeTrade]
  repeat' split
  all_goals simp_all [List.mem_append, hq]

/-- A run in which every collaborator call succeeds: token lookups resolve,
only the 0.3% pool answers the quoter, approval and swap submission go
through, and the CEX sell is accepted. -/
def chainEnvAllOk : ChainEnv :=
  { tokenAddress := fun n s => some (n ++ ":" ++ s),
    quote := fun _ _ fee => if fee = 3000 then some 100 else none,
    approveSubmitOutcome := some (),
    approveWaitOutcome := some (),
    swapSubmitOutcome := some "0xswap" }

/-- C4 (code_bug): in a `dexToCex` execution the Leg2 CEX sell is submitted
as soon as the Leg1 swap transaction is submitted — no execution path ever
waits for the swap to be mined (`swapWait` never occurs in any trace), even
though the orchestrator's own comment says "Wait for transaction to be
mined".  The concrete all-success run's trace is quote×3, approve, approve
confirmation, swap submission, then immediately the CEX sell. -/
theorem C4_leg2_submitted_before_leg1_settles :
    (∀ (E : ChainEnv) (init : Bool) (nw bt qt : String) (amt : ℕ) (s : ℚ)
        (sell : Except String CexOrderResult),
      ChainAct.swapWait ∉
        (executeArbitrageDexToCexChain E init nw bt qt amt s sell).2)
    ∧ executeArbitrageDexToCexChain chainEnvAllOk true "ethereum" "WETH" "USDT"
        5 (1 / 2) (.ok ⟨7⟩)
      = (true,
         [ChainAct.quoteCall "ethereum:USDT" "ethereum:WETH" 500,
          ChainAct.quoteCall "ethereum:USDT" "ethereum:WETH" 3000,
          ChainAct.quoteCall "ethereum:USDT" "ethereum:WETH" 10000,
          ChainAct.approveSubmit "ethereum:USDT",
          ChainAct.approveWait,
          ChainAct.swapSubmit "ethereum:USDT" "ethereum:WETH" 3000,
          ChainAct.cexSellCall]) := by
  constructor
  · intro E init nw bt qt amt s sell
    have h := executeTrade_no_swapWait E init nw "buy" bt qt amt s
    rcases hE : executeTrade E init nw "buy" bt qt amt s with ⟨res, tr⟩
    rw [hE] at h
    rcases res with e | r
    · simpa [executeArbitrageDexToCexChain, hE] using h
    · rcases sell with e | r2 <;>
        simp_all [executeArbitrageDexToCexChain, hE, List.mem_append]
  · norm_num [executeArbitrageDexToCexChain, executeTrade, quoteLoop,
      poolFees, chainEnvAllOk, List.foldl]
    constructor <;> rfl

/-!
## Claim C9: cached decentralized-price lookup
-/

/-- C9 (confirmed): `getDexPrice` returns the cached value on a (truthy)
cache hit without touching the cache; on a miss it calls the adapter,
stores the fresh price under the fixed 60-second default TTL and returns
it; and on a miss followed by an adapter error it returns `none`
(JavaScript `null`) for this cycle instead of throwing, leaving the cache
unchanged. -/
theorem C9_getDexPrice_cache_contract
    (uniswapGetPrice : Except String String)
    (cache : String → Option CacheEntry) (nw bt qt : String) :
    (∀ entry, cache (dexPriceCacheKey nw bt qt) = some entry →
      entry.value ≠ "" →
      getDexPrice uniswapGetPrice cache nw bt qt = (some entry.value, cache))
    ∧ (cache (dexPriceCacheKey nw bt qt) = none →
      (∀ price, uniswapGetPrice = .ok price →
        getDexPrice uniswapGetPrice cache nw bt qt
          = (some price,
             fun k => if k = dexPriceCacheKey nw bt qt
                      then some ⟨price, 60⟩ else cache k))
      ∧ (∀ err, uniswapGetPrice = .error err →
        getDexPrice uniswapGetPrice cache nw bt qt = (none, cache))) := by
  refine ⟨?_, fun hmiss => ⟨?_, ?_⟩⟩
  · intro entry he hv
    simp [getDexPrice, he, hv]
  · intro price hok
    simp [getDexPrice, getDexPriceFresh, hmiss, hok]
  · intro err herr
    simp [getDexPrice, getDexPriceFresh, hmiss, herr]

/-- The empty cache. -/
def emptyCache : String → Option CacheEntry := fun _ => none

/-- A cache already holding a price for ETH-USDT on ethereum. -/
def primedCache : String → Option CacheEntry :=
  fun k => if k = dexPriceCacheKey "ethereum" "ETH" "USDT"
           then some ⟨"1234.5", 60⟩ else none

/-- C9, witness: the contract applied to a hit on a primed cache, a miss
with a successful fetch, and a miss with a failing fetch. -/
theorem C9_witness :
    getDexPrice (.error "ignored") primedCache "ethereum" "ETH" "USDT"
      = (some "1234.5", primedCache)
    ∧ getDexPrice (.ok "1234.5") emptyCache "ethereum" "ETH" "USDT"
      = (some "1234.5",
         fun k => if k = dexPriceCacheKey "ethereum" "ETH" "USDT"
                  then some ⟨"1234.5", 60⟩ else emptyCache k)
    ∧ getDexPrice (.error "quote failed") emptyCache "ethereum" "ETH" "USDT"
      = (none, emptyCache) := by
  refine ⟨?_, ?_, ?_⟩
  · exact (C9_getDexPrice_cache_contract (.error "ignored") primedCache
      "ethereum" "ETH" "USDT").1 ⟨"1234.5", 60⟩ (by simp [primedCache])
      (by simp)
  · exact ((C9_getDexPrice_cache_contract (.ok "1234.5") emptyCache
      "ethereum" "ETH" "USDT").2 rfl).1 "1234.5" rfl
  · exact ((C9_getDexPrice_cache_contract (.error "quote failed") emptyCache
      "ethereum" "ETH" "USDT").2 rfl).2 "quote failed" rfl

/-!
## Claim C10: Binance quantity normalization
-/

/-- C10 (confirmed): for a symbol with loaded info and a positive quantity,
`normalizeQuantity` returns the quantity rounded down to an exact natural
multiple of the symbol's `stepSize` — at most the input, and within one
step of it — and for a symbol with no loaded info it throws
`Symbol info not found`. -/
theorem C10_normalizeQuantity_contract
    (symbolInfo : String → Option SymbolInfo) (symbol : String)
    (quantity : ℚ) :
    (∀ info, symbolInfo symbol = some info →
      0 < quantity → 0 < info.stepSize →
      ∃ k : ℕ,
        normalizeQuantity symbolInfo symbol quantity
            = .ok (BigNum.num (k * info.stepSize))
        ∧ (k : ℚ) * info.stepSize ≤ quantity
        ∧ quantity - k * info.stepSize < info.stepSize)
    ∧ (symbolInfo symbol = none →
      normalizeQuantity symbolInfo symbol quantity
        = .error ("Symbol info not found for " ++ symbol)) := by
  constructor
  · intro info hinfo hq hs
    have h0 : (0 : ℚ) ≤ quantity / info.stepSize := le_of_lt (div_pos hq hs)
    have hfl0 : (0 : ℤ) ≤ ⌊quantity / info.stepSize⌋ := Int.floor_nonneg.mpr h0
    have hk : ((⌊quantity / info.stepSize⌋.toNat : ℕ) : ℚ)
        = ((⌊quantity / info.stepSize⌋ : ℤ) : ℚ) := by
      exact_mod_cast congrArg (fun z : ℤ => (z : ℚ)) (Int.toNat_of_nonneg hfl0)
    have hfle : ((⌊quantity / info.stepSize⌋ : ℤ) : ℚ) * info.stepSize
        ≤ quantity := by
      have := mul_le_mul_of_nonneg_right (Int.floor_le
        (quantity / info.stepSize)) (le_of_lt hs)
      rwa [div_mul_cancel₀ _ (ne_of_gt hs)] at this
    have hflt : quantity
        < (((⌊quantity / info.stepSize⌋ : ℤ) : ℚ) + 1) * info.stepSize := by
      have := mul_lt_mul_of_pos_right (Int.lt_floor_add_one
        (quantity / info.stepSize)) hs
      rwa [div_mul_cancel₀ _ (ne_of_gt hs)] at this
    refine ⟨(⌊quantity / info.stepSize⌋).toNat, ?_, ?_, ?_⟩
    · simp only [normalizeQuantity, hinfo, bnDivInt, bnMul]
      rw [if_neg (ne_of_gt hs)]
      have htr : ratTrunc (quantity / info.stepSize)
          = ⌊quantity / info.stepSize⌋ := by
        unfold ratTrunc
        rw [if_pos h0]
      rw [htr, hk]
    · rw [hk]
      exact hfle
    · rw [hk]
      nlinarith [hflt]
  · intro hnone
    simp [normalizeQuantity, hnone]

/-- The symbol table with only ETHUSDT loaded (step size 0.01). -/
def symbolInfoTable : String → Option SymbolInfo :=
  fun symbol => if symbol = "ETHUSDT"
                then some ⟨1 / 100, 1 / 100, 10⟩ else none

/-- C10, witness: normalizing 0.123 for ETHUSDT (step 0.01) and asking for
an unloaded symbol. -/
theorem C10_witness :
    (∃ k : ℕ,
      normalizeQuantity symbolInfoTable "ETHUSDT" (123 / 1000)
          = .ok (BigNum.num (k * (1 / 100 : ℚ)))
      ∧ (k : ℚ) * (1 / 100) ≤ 123 / 1000
      ∧ (123 / 1000 : ℚ) - k * (1 / 100) < 1 / 100)
    ∧ normalizeQuantity symbolInfoTable "BTCUSDT" (123 / 1000)
      = .error ("Symbol info not found for " ++ "BTCUSDT") := by
  constructor
  · exact (C10_normalizeQuantity_contract symbolInfoTable "ETHUSDT"
      (123 / 1000)).1 ⟨1 / 100, 1 / 100, 10⟩ (by simp [symbolInfoTable])
      (by norm_num) (by norm_num)
  · exact (C10_normalizeQuantity_contract symbolInfoTable "BTCUSDT"
      (123 / 1000)).2 (by simp [symbolInfoTable])
